import Mathlib

/-!
Verification development for the task filtering, sorting and temporal-window
analytics pipeline of the `ai-todo-manager` repository.

Timestamps (`created_date`, `due_date`) are modelled as milliseconds since the
local epoch (`new Date(s).getTime()` values, all non-negative in this app), so
numeric comparison of `Date` values becomes comparison of `Nat`.
-/

namespace TodoApp

/-- Priority type, from `src/types/todo.ts` (`"high" | "medium" | "low"`). -/
inductive Priority
  | high
  | medium
  | low
deriving DecidableEq

/-- Task record, from the `Todo` type in `src/types/todo.ts`.  `priority` and
`due_date` are nullable in the source; `category` is a nullable array, modelled
with `[]` for null (the source always guards with `Array.isArray`). -/
structure Todo where
  title : String
  description : Option String := none
  created_date : Nat
  due_date : Option Nat
  priority : Option Priority
  category : List String
  completed : Bool
deriving DecidableEq

/-- Status filter values of the main page (`src/unnamed/part_002`, line 44). -/
inductive StatusFilter
  | all
  | completed
  | pending
  | waiting
deriving DecidableEq

/-- Sort keys of the main page (`src/unnamed/part_002`, line 46). -/
inductive SortKey
  | created
  | due
  | priority
  | title
deriving DecidableEq

/-- Sort directions (`src/unnamed/part_002`, line 47). -/
inductive SortOrder
  | asc
  | desc
deriving DecidableEq

/-- The ordinal map used by the priority comparator
(`src/unnamed/part_002`, lines 110-115): high 3, medium 2, low 1, null 0. -/
def priorityOrder : Option Priority → Int
  | some .high => 3
  | some .medium => 2
  | some .low => 1
  | none => 0

/-- JavaScript `s.includes(sub)` substring test. -/
def containsStr (s sub : String) : Bool :=
  decide (sub.toList <:+: s.toList)

/-- JavaScript `s.toLowerCase()` (modelled character-wise). -/
def jsToLower (s : String) : String :=
  String.mk (s.toList.map Char.toLower)

/-- Leading and trailing whitespace removal on a character list. -/
def trimChars (cs : List Char) : List Char :=
  ((cs.dropWhile Char.isWhitespace).reverse.dropWhile Char.isWhitespace).reverse

/-- JavaScript `s.trim()`. -/
def jsTrim (s : String) : String :=
  String.mk (trimChars s.toList)

/-- The comparator of `filteredAndSortedTodos` (`src/unnamed/part_002`,
lines 96-125), before the direction is applied.  The locale-aware
`localeCompare(..., "ko")` used for the `title` key is opaque to this model and
is passed in as `titleCmp`. -/
def compareTodos (titleCmp : String → String → Int) (key : SortKey) (a b : Todo) : Int :=
  match key with
  | .created => (a.created_date : Int) - (b.created_date : Int)
  | .due =>
    match a.due_date, b.due_date with
    | none, none => 0
    | none, some _ => 1
    | some _, none => -1
    | some x, some y => (x : Int) - (y : Int)
  | .priority => priorityOrder a.priority - priorityOrder b.priority
  | .title => titleCmp a.title b.title

/-- Direction application (`src/unnamed/part_002`, line 128):
`desc` negates the comparator result, `asc` uses it as-is. -/
def directed (ord : SortOrder) (c : Int) : Int :=
  match ord with
  | .desc => -c
  | .asc => c

/-- The "a stays before b" relation induced by the directed comparator; a
stable comparator sort orders the list along this relation. -/
def sortRel (titleCmp : String → String → Int) (key : SortKey) (ord : SortOrder)
    (a b : Todo) : Prop :=
  directed ord (compareTodos titleCmp key a b) ≤ 0

instance (tc : String → String → Int) (key : SortKey) (ord : SortOrder) :
    DecidableRel (sortRel tc key ord) :=
  fun a b => inferInstanceAs (Decidable (directed ord (compareTodos tc key a b) ≤ 0))

/-- Search step (`src/unnamed/part_002`, lines 76-79): when the query is not
whitespace-only, keep tasks whose lowercased title contains the lowercased
(untrimmed) query. -/
def searchStep (q : String) (l : List Todo) : List Todo :=
  if jsTrim q = "" then l
  else l.filter (fun t => containsStr (jsToLower t.title) (jsToLower q))

/-- Status filter step (`src/unnamed/part_002`, lines 82-88). -/
def statusStep : StatusFilter → List Todo → List Todo
  | .completed, l => l.filter (fun t => t.completed)
  | .pending, l => l.filter (fun t => !t.completed)
  | .waiting, l => l.filter (fun t => !t.completed && t.due_date.isNone)
  | .all, l => l

/-- Priority filter step (`src/unnamed/part_002`, lines 91-93); `none` models
the `"all"` setting. -/
def prioStep : Option Priority → List Todo → List Todo
  | some p, l => l.filter (fun t => t.priority == some p)
  | none, l => l

/-- The Filter/Sort Engine `filteredAndSortedTodos`
(`src/unnamed/part_002`, lines 72-132): search, status and priority filters in
that order, then one comparator sort (JavaScript `Array.prototype.sort` is
stable, modelled by `List.insertionSort`). -/
def filteredAndSortedTodos (titleCmp : String → String → Int) (todos : List Todo)
    (q : String) (status : StatusFilter) (pri : Option Priority)
    (key : SortKey) (ord : SortOrder) : List Todo :=
  List.insertionSort (sortRel titleCmp key ord)
    (prioStep pri (statusStep status (searchStep q todos)))

/-- Spec-side status predicate used to state the conjunctive (AND) filter
semantics. -/
def statusMatches : StatusFilter → Todo → Bool
  | .all, _ => true
  | .completed, t => t.completed
  | .pending, t => !t.completed
  | .waiting, t => !t.completed && t.due_date.isNone

/-- Spec-side priority predicate used to state the conjunctive (AND) filter
semantics. -/
def prioMatches : Option Priority → Todo → Bool
  | none, _ => true
  | some p, t => t.priority == some p

/-! ### Temporal Window Classifier

`handleAnalyzeTodos` (`src/unnamed/part_002`, lines 449-502) computes the
window boundaries from the Korea-local wall clock.  We model a local instant
as milliseconds since the local epoch; the local epoch day (1970-01-01) was a
Thursday, so JavaScript `getDay()` of the instant's local date is
`(t / msPerDay + 4) % 7` with 0 = Sunday. -/

/-- Milliseconds in one day. -/
def msPerDay : Nat := 86400000

/-- Day index of a local instant (days since the local epoch). -/
def dayIndex (t : Nat) : Nat := t / msPerDay

/-- JavaScript `getDay()` of the instant's local date: 0 = Sunday .. 6 = Saturday. -/
def weekday (t : Nat) : Nat := (dayIndex t + 4) % 7

/-- `setHours(0,0,0,0)`: local midnight of the instant's date
(`src/unnamed/part_002`, lines 451, 457). -/
def todayStart (t : Nat) : Nat := dayIndex t * msPerDay

/-- `setHours(23,59,59,999)` of the instant's date (`src/unnamed/part_002`,
lines 458-459). -/
def todayEnd (t : Nat) : Nat := todayStart t + (msPerDay - 1)

/-- Offset back to Monday: `dayOfWeek === 0 ? 6 : dayOfWeek - 1`
(`src/unnamed/part_002`, line 480). -/
def mondayOffset (w : Nat) : Nat := if w = 0 then 6 else w - 1

/-- Monday of the instant's week at local midnight
(`src/unnamed/part_002`, lines 478-481). -/
def weekStart (t : Nat) : Nat := todayStart t - mondayOffset (weekday t) * msPerDay

/-- Following Sunday at 23:59:59.999: Monday plus 6 days, `setHours(23,59,59,999)`
(`src/unnamed/part_002`, lines 483-485). -/
def weekEnd (t : Nat) : Nat := weekStart t + 6 * msPerDay + (msPerDay - 1)

/-- Analysis period (`"today" | "week"`). -/
inductive Period
  | today
  | week
deriving DecidableEq

/-- The inclusive window boundaries used by `handleAnalyzeTodos` for each
period. -/
def analyzeWindow (p : Period) (t : Nat) : Nat × Nat :=
  match p with
  | .today => (todayStart t, todayEnd t)
  | .week => (weekStart t, weekEnd t)

/-- Window membership test of `handleAnalyzeTodos` (`src/unnamed/part_002`,
lines 461-475 and 487-501): created timestamp inside the window, or — when a
due timestamp exists — due timestamp inside the window. -/
def inAnalysisWindow (p : Period) (t : Nat) (todo : Todo) : Bool :=
  let s := (analyzeWindow p t).1
  let e := (analyzeWindow p t).2
  let isCreatedIn := decide (s ≤ todo.created_date) && decide (todo.created_date ≤ e)
  match todo.due_date with
  | some d => isCreatedIn || (decide (s ≤ d) && decide (d ≤ e))
  | none => isCreatedIn

/-- The windowed subset sent to the analysis endpoint
(`src/unnamed/part_002`, lines 461 and 487). -/
def analysisTodos (p : Period) (t : Nat) (todos : List Todo) : List Todo :=
  todos.filter (inAnalysisWindow p t)

/-! ### Analytics Aggregator -/

/-- One step of the per-category aggregation loop (`src/unnamed/part_001`,
lines 477-485): bump the `total` counter for `cat`, and the `completed`
counter when the task is completed.  The record of the source is modelled as a
total map defaulting to `(0, 0)` (the `if (!categoryStats[cat])`
initialization). -/
def bumpCat (c : Bool) (m : String → Nat × Nat) (cat : String) : String → Nat × Nat :=
  fun k =>
    if k = cat then ((m cat).1 + 1, (m cat).2 + (if c then 1 else 0))
    else m k

/-- The per-category aggregation `categoryStats`
(`src/unnamed/part_001`, lines 473-487): a `forEach` over the tasks with an
inner `forEach` over each task's category array. -/
def categoryStats (todos : List Todo) : String → Nat × Nat :=
  todos.foldl (fun m t => t.category.foldl (bumpCat t.completed) m) (fun _ => (0, 0))

/-- Completion rate of the analysis route (`src/unnamed/part_001`,
lines 443-445): `totalTodos > 0 ? (completedTodos / totalTodos) * 100 : 0`. -/
def completionRate (todos : List Todo) : ℚ :=
  if 0 < todos.length then
    (((todos.filter (fun t => t.completed)).length : ℚ) / (todos.length : ℚ)) * 100
  else 0

/-- `calculateCompletionRate` of the main page (`src/unnamed/part_002`,
lines 547-551): `if (todosList.length === 0) return 0; return (completed / length) * 100`. -/
def calculateCompletionRate (todos : List Todo) : ℚ :=
  if todos.length = 0 then 0
  else (((todos.filter (fun t => t.completed)).length : ℚ) / (todos.length : ℚ)) * 100

/-! ### Natural-Language Task Extractor: local input validation
(`src/app/api/ai/generate-todo/route.ts`, lines 56-92) -/

/-- Collapse every maximal whitespace run to a single space
(`input.replace(/\s+/g, " ")`); the flag records whether the previous
character was part of a whitespace run. -/
def collapseWsAux : Bool → List Char → List Char
  | _, [] => []
  | prevWs, c :: cs =>
    if c.isWhitespace then
      if prevWs then collapseWsAux true cs
      else ' ' :: collapseWsAux true cs
    else c :: collapseWsAux false cs

/-- Normalization of the extractor input (`route.ts`, lines 64-65):
`input.trim()` then collapse whitespace runs to a single space. -/
def normalizeInput (input : String) : String :=
  String.mk (collapseWsAux false (trimChars input.toList))

/-- Validation error outcomes of the extractor endpoint (each is an HTTP 400
response in the source). -/
inductive GenValidationError
  | emptyInput
  | tooShort
  | tooLong (count : Nat)
deriving DecidableEq

/-- Result of the extractor endpoint's input validation: an HTTP 400 rejection
or the accepted normalized input. -/
inductive GenCheck
  | reject (e : GenValidationError)
  | accept (normalized : String)
deriving DecidableEq

/-- The input validation chain of the extractor endpoint
(`route.ts`, lines 64-92): empty, then minimum length 2, then maximum length
500 (the too-long message reports the actual character count). -/
def validateGenerateInput (input : String) : GenCheck :=
  let normalized := normalizeInput input
  if normalized.length = 0 then .reject .emptyInput
  else if normalized.length < 2 then .reject .tooShort
  else if 500 < normalized.length then .reject (.tooLong normalized.length)
  else .accept normalized

/-! ### Natural-Language Task Extractor: due-date post-processing
(`src/app/api/ai/generate-todo/route.ts`, lines 181-214) -/

/-- Numeric value of a two-digit character pair. -/
def dig2 (a b : Char) : Nat := (a.toNat - 48) * 10 + (b.toNat - 48)

/-- Numeric value of a four-digit character quadruple. -/
def dig4 (a b c d : Char) : Nat :=
  ((a.toNat - 48) * 10 + (b.toNat - 48)) * 100 + dig2 c d

/-- Prefix match of the date part of the regex
`/^(\d{4}-\d{2}-\d{2})(T\d{2}:\d{2}:\d{2})?/`: on success returns year, month,
day and the unconsumed remainder of the string. -/
def matchDate : List Char → Option (Nat × Nat × Nat × List Char)
  | y1 :: y2 :: y3 :: y4 :: '-' :: m1 :: m2 :: '-' :: d1 :: d2c :: rest =>
    if y1.isDigit && y2.isDigit && y3.isDigit && y4.isDigit
        && m1.isDigit && m2.isDigit && d1.isDigit && d2c.isDigit then
      some (dig4 y1 y2 y3 y4, dig2 m1 m2, dig2 d1 d2c, rest)
    else none
  | _ => none

/-- Prefix match of the optional time group `(T\d{2}:\d{2}:\d{2})?` of the
same regex: hour, minute, second when the group matches. -/
def matchTime : List Char → Option (Nat × Nat × Nat)
  | 'T' :: h1 :: h2 :: ':' :: m1 :: m2 :: ':' :: s1 :: s2 :: _ =>
    if h1.isDigit && h2.isDigit && m1.isDigit && m2.isDigit && s1.isDigit && s2.isDigit then
      some (dig2 h1 h2, dig2 m1 m2, dig2 s1 s2)
    else none
  | _ => none

/-- Gregorian leap-year test. -/
def isLeapYear (y : Nat) : Bool :=
  (y % 4 == 0 && y % 100 != 0) || y % 400 == 0

/-- Number of days of month `m` (1..12) in year `y`. -/
def daysInMonth (y m : Nat) : Nat :=
  match m with
  | 1 => 31
  | 2 => if isLeapYear y then 29 else 28
  | 3 => 31
  | 4 => 30
  | 5 => 31
  | 6 => 30
  | 7 => 31
  | 8 => 31
  | 9 => 30
  | 10 => 31
  | 11 => 30
  | 12 => 31
  | _ => 0

/-- Days in year `y` before the first of month `m` (1..12). -/
def daysBeforeMonth (y m : Nat) : Nat :=
  let leap := if isLeapYear y then 1 else 0
  match m with
  | 1 => 0
  | 2 => 31
  | 3 => 59 + leap
  | 4 => 90 + leap
  | 5 => 120 + leap
  | 6 => 151 + leap
  | 7 => 181 + leap
  | 8 => 212 + leap
  | 9 => 243 + leap
  | 10 => 273 + leap
  | 11 => 304 + leap
  | 12 => 334 + leap
  | _ => 0

/-- Day number of the civil date `y-m-d` (days since 0001-01-01), used for the
date-only difference `Math.floor((dueDate - currentDate) / 86400000)` of the
source: both sides are local midnights, so the millisecond difference is
exactly the day-number difference. -/
def dayNumber (y m d : Nat) : Nat :=
  365 * (y - 1) + (y - 1) / 4 - (y - 1) / 100 + (y - 1) / 400
    + daysBeforeMonth y m + (d - 1)

/-- Validity of the matched components as a JavaScript `Date`: an ISO string
with an out-of-range month, day, hour, minute or second parses to an Invalid
Date (`NaN` time value) in the source. -/
def validDateTime (y m d : Nat) (tp : Option (Nat × Nat × Nat)) : Bool :=
  decide (1 ≤ m) && decide (m ≤ 12) && decide (1 ≤ d) && decide (d ≤ daysInMonth y m)
    && (match tp with
        | some (hh, mm, ss) => decide (hh ≤ 23) && decide (mm ≤ 59) && decide (ss ≤ 59)
        | none => true)

/-- Zero-padded two-digit rendering of `n < 100`. -/
def pad2 (n : Nat) : String :=
  if n < 10 then "0" ++ toString n else toString n

/-- Zero-padded four-digit rendering of `n < 10000`. -/
def pad4 (n : Nat) : String :=
  if n < 10 then "000" ++ toString n
  else if n < 100 then "00" ++ toString n
  else if n < 1000 then "0" ++ toString n
  else toString n

/-- The `YYYY-MM-DD` string of the matched date components (reconstructs the
regex capture group `dateOnly`). -/
def dateString (y m d : Nat) : String :=
  pad4 y ++ "-" ++ pad2 m ++ "-" ++ pad2 d

/-- The due-date post-processing of the extractor
(`route.ts`, lines 181-214).  `nowDays` is the day number of the Korea-local
current date (`koreaTime` truncated to midnight).  When the matched date is an
Invalid Date, both `NaN` comparisons of the source are false, so control falls
through to the keep branch. -/
def processDueDate (nowDays : Nat) (due : String) : Option String :=
  match matchDate due.toList with
  | none => none
  | some (y, m, d, rest) =>
    let tp := matchTime rest
    let keep : Option String :=
      match tp with
      | some _ => some due
      | none => some (dateString y m d ++ "T09:00:00")
    if validDateTime y m d tp then
      if (dayNumber y m d : Int) - (nowDays : Int) < -1 then none
      else keep
    else keep

/-- Does the string begin with the `YYYY-MM-DD(THH:MM:SS)?` pattern (the
unanchored regex of the source)? -/
def dueFormPrefixB (due : String) : Bool :=
  (matchDate due.toList).isSome

/-- Follows the spec words, for comparison with the source behaviour: the
whole string has the form `YYYY-MM-DD` optionally followed by `THH:MM:SS`,
with nothing after it. -/
def dueFormExactB (due : String) : Bool :=
  match matchDate due.toList with
  | some (_, _, _, rest) => rest.isEmpty || ((matchTime rest).isSome && rest.length == 9)
  | none => false

/-! ### Summary Narrative Requestor: empty-subset short-circuit
(`src/unnamed/part_001`, lines 423-434) -/

/-- Shape of the analysis endpoint's response body. -/
structure AnalysisResponse where
  summary : String
  urgentTasks : List String
  insights : List String
  recommendations : List String
deriving DecidableEq

/-- The fixed canned empty-state response of the analysis endpoint
(`src/unnamed/part_001`, lines 425-433). -/
def emptyAnalysisResponse (p : Period) : AnalysisResponse :=
  { summary :=
      match p with
      | .today => "오늘 등록된 할 일이 없습니다."
      | .week => "이번 주 등록된 할 일이 없습니다.",
    urgentTasks := [],
    insights := ["할 일을 추가하여 시작해보세요!"],
    recommendations := [] }

/-- Outcome of the analysis endpoint's empty-subset check: either an immediate
HTTP response, or continuation into the remote generative call. -/
inductive AnalyzeStep
  | respond (status : Nat) (resp : AnalysisResponse)
  | callRemote (todos : List Todo) (p : Period)
deriving DecidableEq

/-- The empty-subset short-circuit of the analysis endpoint
(`src/unnamed/part_001`, lines 424-434): an empty (already validated) `todos`
array returns the canned response with status 200 before any remote call. -/
def handleAnalyzeEmptyCheck (todos : List Todo) (p : Period) : AnalyzeStep :=
  if todos.length = 0 then .respond 200 (emptyAnalysisResponse p)
  else .callRemote todos p

/-! ### Concrete fixtures used by scenario theorems, counterexamples and
witnesses -/

/-- Trivial stand-in for the opaque locale comparator; the concrete scenarios
below never sort by title. -/
def cmp0 : String → String → Int := fun _ _ => 0

/-- Scenario task A of §8: title "A", priority high, not completed, no due. -/
def taskA : Todo :=
  { title := "A", created_date := 0, due_date := none,
    priority := some .high, category := [], completed := false }

/-- Scenario task B of §8: title "B", priority low, completed, no due. -/
def taskB : Todo :=
  { title := "B", created_date := 0, due_date := none,
    priority := some .low, category := [], completed := true }

/-- A task without a due timestamp. -/
def noDueTask : Todo :=
  { title := "noDue", created_date := 0, due_date := none,
    priority := none, category := [], completed := false }

/-- A task with a due timestamp. -/
def hasDueTask : Todo :=
  { title := "hasDue", created_date := 0, due_date := some 1000,
    priority := none, category := [], completed := false }

/-- An uncompleted task with neither due date nor priority, satisfying the
`waiting` status filter. -/
def waitingTask : Todo :=
  { title := "W", created_date := 0, due_date := none,
    priority := none, category := [], completed := false }

/-- A completed task whose category array lists the same label twice. -/
def dupCatTask : Todo :=
  { title := "dup", created_date := 0, due_date := none,
    priority := none, category := ["업무", "업무"], completed := true }

/-- The §8 category scenario task: completed, categories `["업무", "개인"]`. -/
def twoCatTask : Todo :=
  { title := "two", created_date := 0, due_date := none,
    priority := none, category := ["업무", "개인"], completed := true }

/-- A reference local instant on a Wednesday: 1970-01-07 (a Wednesday)
at 07:00 local time. -/
def wedT : Nat := 6 * msPerDay + 7 * 3600000

/-- Day number of the reference "now" used by concrete due-date fixtures:
2025-10-11. -/
def nowRef : Nat := dayNumber 2025 10 11

/-- Spec-side "a may stay before b" ordering for the `due` key in ascending
direction: an undated task never precedes a dated one, and dated tasks are in
non-decreasing due order. -/
def dueBeforeAsc (a b : Todo) : Prop :=
  (a.due_date = none → b.due_date = none)
    ∧ ∀ x y, a.due_date = some x → b.due_date = some y → x ≤ y

/-- Spec-side "a may stay before b" ordering for the `due` key in descending
direction: a dated task never precedes an undated one, and dated tasks are in
non-increasing due order. -/
def dueBeforeDesc (a b : Todo) : Prop :=
  (b.due_date = none → a.due_date = none)
    ∧ ∀ x y, a.due_date = some x → b.due_date = some y → y ≤ x

/-! ## Theorems -/

theorem mem_searchStep {q : String} {l : List Todo} {t : Todo} :
    t ∈ searchStep q l ↔
      t ∈ l ∧ (jsTrim q = "" ∨ containsStr (jsToLower t.title) (jsToLower q) = true) := by
  unfold searchStep
  by_cases h : jsTrim q = "" <;> simp [h, List.mem_filter]

theorem mem_statusStep {sf : StatusFilter} {l : List Todo} {t : Todo} :
    t ∈ statusStep sf l ↔ t ∈ l ∧ statusMatches sf t = true := by
  cases sf <;> simp [statusStep, statusMatches, List.mem_filter]

theorem mem_prioStep {pf : Option Priority} {l : List Todo} {t : Todo} :
    t ∈ prioStep pf l ↔ t ∈ l ∧ prioMatches pf t = true := by
  cases pf <;> simp [prioStep, prioMatches, List.mem_filter]

theorem mem_filteredAndSortedTodos {tc : String → String → Int} {todos : List Todo}
    {q : String} {sf : StatusFilter} {pf : Option Priority} {key : SortKey}
    {ord : SortOrder} {t : Todo} :
    t ∈ filteredAndSortedTodos tc todos q sf pf key ord ↔
      t ∈ todos
        ∧ (jsTrim q = "" ∨ containsStr (jsToLower t.title) (jsToLower q) = true)
        ∧ statusMatches sf t = true
        ∧ prioMatches pf t = true := by
  unfold filteredAndSortedTodos
  rw [List.mem_insertionSort, mem_prioStep, mem_statusStep, mem_searchStep]
  tauto

/-- C2: for every task set and every search/priority/sort setting, the
`waiting` status filter result is a subset of the `pending` status filter
result under otherwise identical parameters. -/
theorem waiting_subset_pending (tc : String → String → Int) (todos : List Todo)
    (q : String) (pf : Option Priority) (key : SortKey) (ord : SortOrder) :
    filteredAndSortedTodos tc todos q .waiting pf key ord ⊆
      filteredAndSortedTodos tc todos q .pending pf key ord := by
  intro t ht
  rw [mem_filteredAndSortedTodos] at ht ⊢
  refine ⟨ht.1, ht.2.1, ?_, ht.2.2.2⟩
  have hw := ht.2.2.1
  simp only [statusMatches, Bool.and_eq_true] at hw ⊢
  exact hw.1

/-- Witness for `waiting_subset_pending` at a concrete task set. -/
theorem waiting_subset_pending_witness :
    waitingTask ∈ filteredAndSortedTodos cmp0 [waitingTask] "" .pending none .created .asc :=
  waiting_subset_pending cmp0 [waitingTask] "" none .created .asc (by decide)

/-- C3: the Filter/Sort Engine applies the search, status and priority filters
conjunctively (AND semantics) and then sorts once, so membership in the output
is exactly membership in the input conjoined with the three predicates (the
search predicate is a case-insensitive substring match on the title, with an
empty or whitespace-only query matching everything); moreover, on the §8
scenario tasks A and B, `status=pending` returns only A, `priority=high`
returns only A, and sorting by `priority desc` yields `[A, B]`. -/
theorem engine_conjunctive_filters :
    (∀ (tc : String → String → Int) (todos : List Todo) (q : String) (sf : StatusFilter)
        (pf : Option Priority) (key : SortKey) (ord : SortOrder) (t : Todo),
      t ∈ filteredAndSortedTodos tc todos q sf pf key ord ↔
        t ∈ todos
          ∧ (jsTrim q = "" ∨ containsStr (jsToLower t.title) (jsToLower q) = true)
          ∧ statusMatches sf t = true
          ∧ prioMatches pf t = true)
    ∧ filteredAndSortedTodos cmp0 [taskA, taskB] "" .pending none .created .desc = [taskA]
    ∧ filteredAndSortedTodos cmp0 [taskA, taskB] "" .all (some .high) .created .desc = [taskA]
    ∧ filteredAndSortedTodos cmp0 [taskA, taskB] "" .all none .priority .desc = [taskA, taskB] :=
  ⟨fun _ _ _ _ _ _ _ _ => mem_filteredAndSortedTodos, by decide, by decide, by decide⟩

theorem sortRel_due_total (tc : String → String → Int) (ord : SortOrder) :
    ∀ a b : Todo, sortRel tc .due ord a b ∨ sortRel tc .due ord b a := by
  intro a b
  unfold sortRel directed compareTodos
  cases ord <;> rcases hx : a.due_date with _ | x <;> rcases hy : b.due_date with _ | y <;>
    simp [hx, hy] <;> omega

theorem sortRel_due_trans (tc : String → String → Int) (ord : SortOrder) :
    ∀ a b c : Todo,
      sortRel tc .due ord a b → sortRel tc .due ord b c → sortRel tc .due ord a c := by
  intro a b c hab hbc
  unfold sortRel directed compareTodos at hab hbc ⊢
  cases ord <;> rcases hx : a.due_date with _ | x <;> rcases hy : b.due_date with _ | y <;>
    rcases hz : c.due_date with _ | z <;> simp [hx, hy, hz] at hab hbc ⊢ <;> omega

theorem sortRel_due_asc_elim {tc : String → String → Int} {a b : Todo}
    (h : sortRel tc .due .asc a b) : dueBeforeAsc a b := by
  unfold sortRel directed compareTodos at h
  unfold dueBeforeAsc
  rcases hx : a.due_date with _ | x <;> rcases hy : b.due_date with _ | y <;>
    simp [hx, hy] at h ⊢ <;> omega

theorem sortRel_due_desc_elim {tc : String → String → Int} {a b : Todo}
    (h : sortRel tc .due .desc a b) : dueBeforeDesc a b := by
  unfold sortRel directed compareTodos at h
  unfold dueBeforeDesc
  rcases hx : a.due_date with _ | x <;> rcases hy : b.due_date with _ | y <;>
    simp [hx, hy] at h ⊢ <;> omega

/-- C1 counterexample: sorting by `due` in the `desc` direction places the
task without a due timestamp first, before the task that has one — the source
negates the whole comparator, missing-due placement included, so "undated
tasks sort after dated ones regardless of direction" fails for `desc`. -/
theorem due_sort_desc_counterexample :
    filteredAndSortedTodos cmp0 [noDueTask, hasDueTask] "" .all none .due .desc
      = [noDueTask, hasDueTask]
    ∧ noDueTask.due_date = none
    ∧ hasDueTask.due_date = some 1000
    ∧ ¬ (filteredAndSortedTodos cmp0 [noDueTask, hasDueTask] "" .all none .due .desc).Pairwise
        (fun a b => a.due_date = none → b.due_date = none) :=
  ⟨by decide, rfl, rfl, by decide⟩

/-- C1 amended: sorting by the `due` key orders the output along the directed
due comparator.  In the `asc` direction every task lacking a due timestamp is
placed after every task that has one and dated tasks are in non-decreasing due
order; in the `desc` direction the comparator result — including the
missing-due placement — is negated, so undated tasks are placed before dated
ones and dated tasks are in non-increasing due order. -/
theorem due_sort_ordering (tc : String → String → Int) (todos : List Todo)
    (q : String) (sf : StatusFilter) (pf : Option Priority) :
    (filteredAndSortedTodos tc todos q sf pf .due .asc).Pairwise dueBeforeAsc
    ∧ (filteredAndSortedTodos tc todos q sf pf .due .desc).Pairwise dueBeforeDesc := by
  constructor
  · haveI : IsTotal Todo (sortRel tc .due .asc) := ⟨sortRel_due_total tc .asc⟩
    haveI : IsTrans Todo (sortRel tc .due .asc) := ⟨sortRel_due_trans tc .asc⟩
    have hs := List.sorted_insertionSort (sortRel tc .due .asc)
      (prioStep pf (statusStep sf (searchStep q todos)))
    exact hs.imp (fun {a b} hab => sortRel_due_asc_elim hab)
  · haveI : IsTotal Todo (sortRel tc .due .desc) := ⟨sortRel_due_total tc .desc⟩
    haveI : IsTrans Todo (sortRel tc .due .desc) := ⟨sortRel_due_trans tc .desc⟩
    have hs := List.sorted_insertionSort (sortRel tc .due .desc)
      (prioStep pf (statusStep sf (searchStep q todos)))
    exact hs.imp (fun {a b} hab => sortRel_due_desc_elim hab)

/-- C4: for any instant at least six days past the local epoch, the `week`
window starts at the Monday of that instant's week at local midnight (it is a
Monday, it is a midnight, and it lies at most six days before the instant's
date) and ends exactly `6 * msPerDay + 86399999` later, i.e. the following
Sunday at 23:59:59.999; in particular, for an instant falling on a Wednesday
the start is two days before that date's midnight and the end is the following
Sunday, four days after, at 23:59:59.999. -/
theorem week_window (t : Nat) (h : 6 * msPerDay ≤ t) :
    weekday (weekStart t) = 1
    ∧ weekStart t % msPerDay = 0
    ∧ weekStart t ≤ todayStart t
    ∧ todayStart t ≤ weekStart t + 6 * msPerDay
    ∧ weekEnd t = weekStart t + 6 * msPerDay + (msPerDay - 1)
    ∧ weekday (weekEnd t) = 0
    ∧ weekEnd t % msPerDay = msPerDay - 1
    ∧ (weekday t = 3 →
        weekStart t = todayStart t - 2 * msPerDay
        ∧ weekEnd t = todayStart t + 4 * msPerDay + (msPerDay - 1)) := by
  simp only [weekday, weekStart, weekEnd, todayStart, dayIndex, msPerDay] at h ⊢
  set d := t / 86400000 with hd
  have h6 : 6 ≤ d := by omega
  set off := mondayOffset ((d + 4) % 7) with hoff
  have hoff6 : off ≤ 6 := by rw [hoff]; unfold mondayOffset; split <;> omega
  have hK : (d - off + 4) % 7 = 1 := by rw [hoff]; unfold mondayOffset; split <;> omega
  have hoff3 : (d + 4) % 7 = 3 → off = 2 := by
    intro hw3; rw [hoff]; unfold mondayOffset; split <;> omega
  clear_value off
  clear_value d
  refine ⟨?_, ?_, ?_, ?_, ?_, ?_, ?_, ?_⟩
  · omega
  · omega
  · omega
  · omega
  · trivial
  · omega
  · omega
  · intro hw3
    have hoff2 : off = 2 := hoff3 hw3
    constructor
    · omega
    · omega

/-- Witness for `week_window`: the reference instant `wedT`
(1970-01-07 07:00 local, a Wednesday) is at least six days past the epoch, and
the computed week start is a Monday. -/
theorem week_window_witness :
    6 * msPerDay ≤ wedT ∧ weekday (weekStart wedT) = 1 :=
  ⟨by decide, (week_window wedT (by decide)).1⟩

/-- C9: an analysis request with an empty (validated) todos array returns the
fixed canned empty-state response — period-specific empty summary, no urgent
tasks, exactly one encouragement insight, no recommendations — with status
200, and never reaches the remote generative call. -/
theorem analyze_empty_short_circuit (p : Period) :
    handleAnalyzeEmptyCheck [] p = .respond 200 (emptyAnalysisResponse p)
    ∧ (emptyAnalysisResponse p).urgentTasks = []
    ∧ (emptyAnalysisResponse p).insights.length = 1
    ∧ (emptyAnalysisResponse p).recommendations = []
    ∧ (emptyAnalysisResponse p).summary
        = (match p with
           | .today => "오늘 등록된 할 일이 없습니다."
           | .week => "이번 주 등록된 할 일이 없습니다.")
    ∧ ∀ todos q, handleAnalyzeEmptyCheck [] p ≠ .callRemote todos q := by
  cases p <;>
    exact ⟨rfl, rfl, rfl, rfl, rfl, fun todos q hc => by simp [handleAnalyzeEmptyCheck] at hc⟩

/-- C10: for both analysis periods, a task belongs to the windowed analysis
subset exactly when its created timestamp lies within the window's inclusive
boundaries, or it has a due timestamp lying within those boundaries; a task
without a due timestamp is included only through its created timestamp. -/
theorem analysis_window_membership (p : Period) (t : Nat) (todos : List Todo) (td : Todo) :
    td ∈ analysisTodos p t todos ↔
      td ∈ todos
        ∧ (((analyzeWindow p t).1 ≤ td.created_date
              ∧ td.created_date ≤ (analyzeWindow p t).2)
           ∨ ∃ d, td.due_date = some d
               ∧ (analyzeWindow p t).1 ≤ d ∧ d ≤ (analyzeWindow p t).2) := by
  unfold analysisTodos
  rw [List.mem_filter]
  unfold inAnalysisWindow
  rcases hd : td.due_date with _ | d <;> simp [hd] <;> tauto

theorem foldl_bumpCat (c : Bool) (cats : List String) (m : String → Nat × Nat) (k : String) :
    (cats.foldl (bumpCat c) m) k
      = ((m k).1 + cats.count k, (m k).2 + if c then cats.count k else 0) := by
  induction cats generalizing m with
  | nil => simp
  | cons hd tl ih =>
    rw [List.foldl_cons, ih]
    unfold bumpCat
    by_cases hk : k = hd
    · subst hk
      rw [if_pos rfl, List.count_cons_self]
      cases c <;> simp <;> omega
    · rw [if_neg hk]
      have hcnt : List.count k (hd :: tl) = List.count k tl := by
        rw [List.count_cons]
        simp [Ne.symm hk]
      rw [hcnt]

theorem categoryStats_eq (todos : List Todo) (k : String) :
    categoryStats todos k
      = ((todos.map (fun t => t.category.count k)).sum,
         ((todos.filter (fun t => t.completed)).map (fun t => t.category.count k)).sum) := by
  suffices h : ∀ m : String → Nat × Nat,
      (todos.foldl (fun m t => t.category.foldl (bumpCat t.completed) m) m) k
        = ((m k).1 + (todos.map (fun t => t.category.count k)).sum,
           (m k).2 + ((todos.filter (fun t => t.completed)).map
             (fun t => t.category.count k)).sum) by
    simpa [categoryStats] using h (fun _ => (0, 0))
  intro m
  induction todos generalizing m with
  | nil => simp
  | cons hd tl ih =>
    rw [List.foldl_cons, ih, foldl_bumpCat]
    by_cases hc : hd.completed <;>
      simp [hc, List.filter_cons] <;> omega

/-- C5 counterexample: the per-category aggregation iterates over the raw
category array, so a completed task listing the same label twice bumps both
the total and the completed counter for that label twice, not once — set
semantics is not applied. -/
theorem category_dup_counterexample :
    dupCatTask.completed = true
    ∧ dupCatTask.category = ["업무", "업무"]
    ∧ categoryStats [dupCatTask] "업무" = (2, 2) :=
  ⟨rfl, rfl, by decide⟩

/-- C5 amended: in the per-category completion counts, every task contributes
once per occurrence of a label in its category array toward that label's total
count and, when completed, once per occurrence toward the completed count
(duplicate occurrences are counted separately, not with set semantics); in
particular a completed task listing the two distinct categories
`["업무", "개인"]` increments both labels' total and completed counters exactly
once each. -/
theorem category_counts_amended :
    (∀ (todos : List Todo) (k : String),
      categoryStats todos k
        = ((todos.map (fun t => t.category.count k)).sum,
           ((todos.filter (fun t => t.completed)).map (fun t => t.category.count k)).sum))
    ∧ ∀ todos : List Todo,
        categoryStats (todos ++ [twoCatTask]) "업무"
          = ((categoryStats todos "업무").1 + 1, (categoryStats todos "업무").2 + 1)
        ∧ categoryStats (todos ++ [twoCatTask]) "개인"
          = ((categoryStats todos "개인").1 + 1, (categoryStats todos "개인").2 + 1) := by
  refine ⟨categoryStats_eq, fun todos => ⟨?_, ?_⟩⟩ <;>
    rw [categoryStats_eq, categoryStats_eq] <;>
      simp [List.filter_append, twoCatTask, List.count_cons]

/-- C6: the completion rate equals completed over total times 100 (with the
convention that an empty subset yields 0), the main page's
`calculateCompletionRate` agrees with the analysis route's computation, the
value always lies in the interval `[0, 100]`, and it is 0 exactly when the
subset is empty or contains no completed task. -/
theorem completion_rate_props (todos : List Todo) :
    calculateCompletionRate todos = completionRate todos
    ∧ calculateCompletionRate todos
        = (((todos.filter (fun t => t.completed)).length : ℚ) / (todos.length : ℚ)) * 100
    ∧ 0 ≤ calculateCompletionRate todos
    ∧ calculateCompletionRate todos ≤ 100
    ∧ (calculateCompletionRate todos = 0
        ↔ todos = [] ∨ (todos.filter (fun t => t.completed)).length = 0) := by
  have hcn : (todos.filter (fun t => t.completed)).length ≤ todos.length :=
    List.length_filter_le _ _
  unfold calculateCompletionRate completionRate
  by_cases hn : todos.length = 0
  · have he : todos = [] := List.length_eq_zero.mp hn
    subst he
    norm_num
  · have hpos : 0 < todos.length := Nat.pos_of_ne_zero hn
    rw [if_neg hn, if_pos hpos]
    have hq : (0:ℚ) < (todos.length : ℚ) := by exact_mod_cast hpos
    refine ⟨rfl, rfl, ?_, ?_, ?_⟩
    · positivity
    · have h1 : ((todos.filter (fun t => t.completed)).length : ℚ) / (todos.length : ℚ) ≤ 1 :=
        (div_le_one hq).mpr (by exact_mod_cast hcn)
      have h2 := mul_le_mul_of_nonneg_right h1 (by norm_num : (0:ℚ) ≤ 100)
      simpa using h2
    · rw [mul_eq_zero, div_eq_zero_iff]
      constructor
      · rintro ((h | h) | h)
        · right; exact_mod_cast h
        · exact absurd h (by exact_mod_cast hq.ne')
        · norm_num at h
      · rintro (h | h)
        · subst h; simp at hn
        · left; left; exact_mod_cast h

/-- C7: the extractor endpoint rejects input that is empty after whitespace
normalization as "empty input", normalized input of length 1 (shorter than 2
but not empty) as "too short", and normalized input longer than 500 characters
as "too long" reporting the actual character count; any input whose
normalized length is between 2 and 500 is accepted and none of the rejections
occurs. -/
theorem generate_input_validation (input : String) :
    (validateGenerateInput input = .reject .emptyInput
      ↔ (normalizeInput input).length = 0)
    ∧ (validateGenerateInput input = .reject .tooShort
      ↔ (normalizeInput input).length = 1)
    ∧ (∀ k, validateGenerateInput input = .reject (.tooLong k)
      ↔ 500 < (normalizeInput input).length ∧ k = (normalizeInput input).length)
    ∧ (validateGenerateInput input = .accept (normalizeInput input)
      ↔ 2 ≤ (normalizeInput input).length ∧ (normalizeInput input).length ≤ 500) := by
  simp only [validateGenerateInput]
  split_ifs with h1 h2 h3 <;>
    refine ⟨?_, ?_, fun k => ?_, ?_⟩ <;> simp_all <;> omega

/-- C8 counterexample: the regex of the source is anchored only at the start,
so a remote `due_date` carrying trailing characters after a full
date-plus-time prefix does not have the claimed form, yet it is kept — and
returned verbatim, trailing characters included. -/
theorem due_postprocess_counterexample :
    dueFormExactB "2999-12-31T10:00:00junk" = false
    ∧ processDueDate nowRef "2999-12-31T10:00:00junk"
        = some "2999-12-31T10:00:00junk" :=
  ⟨by decide, by decide⟩

/-- C8 amended: a remote `due_date` is kept only if it begins with
`YYYY-MM-DD` optionally followed by `THH:MM:SS` (prefix match; trailing
characters are ignored by the pattern); for a match that parses to a valid
date, the result is absent exactly when the date is more than 1 day in the
past relative to now (date-only comparison) — a date exactly one day past is
kept — and otherwise a date-only match is kept with the default time-of-day
09:00:00 while a match with a time part is kept as the original string. -/
theorem due_postprocess_amended (now : Nat) (due : String) :
    (dueFormPrefixB due = false → processDueDate now due = none)
    ∧ (∀ y m d rest, matchDate due.toList = some (y, m, d, rest) →
        validDateTime y m d (matchTime rest) = true →
          (processDueDate now due = none ↔ (dayNumber y m d : Int) < (now : Int) - 1))
    ∧ (∀ y m d rest, matchDate due.toList = some (y, m, d, rest) →
        validDateTime y m d (matchTime rest) = true →
        (now : Int) - 1 ≤ (dayNumber y m d : Int) →
          processDueDate now due
            = some (match matchTime rest with
                    | some _ => due
                    | none => dateString y m d ++ "T09:00:00")) := by
  refine ⟨?_, ?_, ?_⟩
  · intro hpre
    unfold dueFormPrefixB at hpre
    rcases hmd : matchDate due.toList with _ | ⟨y, m, d, rest⟩
    · simp only [processDueDate, hmd]
    · rw [hmd] at hpre; simp at hpre
  · intro y m d rest hmd hv
    simp only [processDueDate, hmd, hv, if_true]
    split_ifs with hlt
    · exact ⟨fun _ => by omega, fun _ => rfl⟩
    · constructor
      · intro hk
        cases hmt : matchTime rest <;> rw [hmt] at hk <;> simp at hk
      · intro hcon
        exact absurd hcon (by omega)
  · intro y m d rest hmd hv hge
    simp only [processDueDate, hmd, hv, if_true]
    rw [if_neg (by omega)]
    cases hmt : matchTime rest <;> rfl

/-- Witness for `due_postprocess_amended`, doubling as the §8 scenario: a
due date 3 days in the past relative to the reference now is discarded. -/
theorem due_postprocess_witness :
    processDueDate nowRef "2025-10-08" = none :=
  ((due_postprocess_amended nowRef "2025-10-08").2.1 2025 10 8 []
    (by decide) (by decide)).mpr (by decide)

end TodoApp
